import Mathlib

/-!
Verification of the Shard speculative-decoding core.

Shallow embedding of:
- `desktop/python/bitnet/ctypes_bridge.py` — `BitNetRuntime.verify_prefix`
  (shard ABI path), modelled as `verifyDraft` over an abstract engine
  `e : List String → Option String` mapping the committed context to the
  engine's next argmax piece (`generate_next_token`); `eval_text` keeps the
  KV cache in sync with `generated_text ++ accepted`, which the functional
  engine abstraction captures.
- `desktop/python/golden_ticket.py` — reputation accounting, ban table and
  answer checking.  Python strings are modelled as lists of Unicode code
  points (`PyStr`); Python floats are modelled by exact rationals; wall-clock
  times are rational parameters.  Python `re.findall(r'-?\d+\.?\d*', s)` is
  modelled by `findNums`.
- `desktop/python/inference.py` — `cooperative_generate`, with
  `PITCH_MODE = False` (the default `SHARD_PITCH_MODE=0`) and
  `GOLDEN_TICKET_AVAILABLE = True`.  Timing-dependent inputs (the local
  model's token, the 50 ms broadcast gate, the CSPRNG injection decision,
  the poll outcome and the current time) are supplied by an environment
  `env : Nat → IterInput`, one entry per loop iteration.  The `while
  tokens_emitted < max_tokens` loop is written with an explicit fuel
  argument; `cfg.maxTokens` fuel always suffices because every iteration
  emits at least the local token (see `loopRun_unfold`).
-/

/-- Python strings as lists of Unicode code points. -/
abbrev PyStr := List Nat

/-- `str.isdigit`-style test for the regex class `\d` (ASCII fragment). -/
def isDigitN (c : Nat) : Bool := decide (48 ≤ c ∧ c ≤ 57)

/-- Whitespace stripped by Python `str.strip()` (ASCII fragment). -/
def isSpaceN (c : Nat) : Bool := decide (c = 32 ∨ c = 9 ∨ c = 10 ∨ c = 13 ∨ c = 11 ∨ c = 12)

/-- One character of Python `str.lower()` (ASCII fragment). -/
def lowerN (c : Nat) : Nat := if 65 ≤ c ∧ c ≤ 90 then c + 32 else c

/-- Python `s.lower()`. -/
def pyLower (s : PyStr) : PyStr := s.map lowerN

/-- Python `s.strip()`. -/
def pyStrip (s : PyStr) : PyStr := ((s.dropWhile isSpaceN).reverse.dropWhile isSpaceN).reverse

/-- `s.strip().lower()` as computed for `response_clean` / `expected_clean`. -/
def pyClean (s : PyStr) : PyStr := pyLower (pyStrip s)

/-- One attempted match of the regex `-?\d+\.?\d*` at the current position,
after the optional leading minus sign has been consumed (`neg`). -/
def matchNumCore (neg : Bool) (s1 : PyStr) : Option (PyStr × PyStr) :=
  let ds := s1.takeWhile isDigitN
  let r1 := s1.dropWhile isDigitN
  if ds = [] then none
  else
    match r1 with
    | c :: r2 =>
      if c = 46 then
        some ((if neg then [45] else []) ++ ds ++ 46 :: r2.takeWhile isDigitN,
          r2.dropWhile isDigitN)
      else some ((if neg then [45] else []) ++ ds, r1)
    | [] => some ((if neg then [45] else []) ++ ds, r1)

/-- One attempted match of `-?\d+\.?\d*` at the current position.  A lone
minus not followed by a digit fails (the regex backtracks over `-?` and
then `\d+` still fails at the minus sign itself). -/
def matchNum (s : PyStr) : Option (PyStr × PyStr) :=
  match s with
  | [] => none
  | c :: rest => if c = 45 then matchNumCore true rest else matchNumCore false (c :: rest)

/-- `re.findall(r'-?\d+\.?\d*', s)`: leftmost non-overlapping matches.
Fuel-driven; `s.length` fuel always suffices since every step consumes at
least one character. -/
def findNumsF : Nat → PyStr → List PyStr
  | 0, _ => []
  | _ + 1, [] => []
  | fuel + 1, c :: cs =>
    match matchNum (c :: cs) with
    | some (t, r) => t :: findNumsF fuel r
    | none => findNumsF fuel cs

/-- All matches of `-?\d+\.?\d*` in `s`, in order. -/
def findNums (s : PyStr) : List PyStr := findNumsF s.length s

/-- Value of a digit string. -/
def digitsVal (ds : PyStr) : Nat := ds.foldl (fun a d => a * 10 + (d - 48)) 0

/-- `float(tok)` for a token matched by `-?\d+\.?\d*`, as an exact rational. -/
def ratOf (tok : PyStr) : ℚ :=
  let neg : Bool := match tok with | 45 :: _ => true | _ => false
  let t1 := if neg then tok.tail else tok
  let ip := t1.takeWhile isDigitN
  let rest := t1.dropWhile isDigitN
  let fr := match rest with | 46 :: r => r | _ => []
  let v : ℚ := (digitsVal ip : ℚ) + (digitsVal fr : ℚ) / (10 : ℚ) ^ fr.length
  if neg then -v else v

/-- The three Golden Ticket match tolerances. -/
inductive Tolerance
  | exact
  | contains
  | numeric
deriving DecidableEq

/-- `GoldenTicketGenerator._check_answer`. -/
def checkAnswer (response expected : PyStr) (tolerance : Tolerance) : Bool :=
  let response_clean := pyClean response
  let expected_clean := pyClean expected
  match tolerance with
  | .exact => decide (response_clean = expected_clean)
  | .contains => decide (expected_clean <:+: response_clean)
  | .numeric =>
    let response_nums := findNums response
    let expected_num := findNums expected
    match expected_num with
    | [] => decide (response_clean = expected_clean)
    | e :: _ =>
      if response_nums.any (fun m => decide (|ratOf m - ratOf e| < 1 / 100)) then true
      else decide (response_clean = expected_clean)

/-- A pre-solved prompt for verifying scout honesty (identifying strings
such as `request_id` live in the keys of the ticket map). -/
structure GoldenTicket where
  prompt : PyStr
  expected_answer : PyStr
  tolerance : Tolerance
deriving DecidableEq

/-- Reputation counters for one scout (`ScoutReputation`; the `first_seen`
and `last_seen` wall-clock fields are not modelled). -/
structure ScoutReputation where
  golden_attempts : Nat
  golden_correct : Nat
deriving DecidableEq

/-- `ScoutReputation.accuracy`. -/
def accuracy (r : ScoutReputation) : ℚ :=
  if r.golden_attempts = 0 then 1 else (r.golden_correct : ℚ) / (r.golden_attempts : ℚ)

/-- `ScoutReputation.record_attempt`. -/
def recordAttempt (r : ScoutReputation) (correct : Bool) : ScoutReputation :=
  { golden_attempts := r.golden_attempts + 1,
    golden_correct := if correct then r.golden_correct + 1 else r.golden_correct }

/-- Ban record for a misbehaving scout (`BanEntry`; the `peer_id` key and
the textual `reason` are not modelled). -/
structure BanEntry where
  banned_at : ℚ
  ban_duration_hours : ℚ
  failed_attempts : Nat
deriving DecidableEq

/-- `BanEntry.is_active` at wall-clock time `now`. -/
def isActive (b : BanEntry) (now : ℚ) : Bool :=
  decide ((now - b.banned_at) / 3600 < b.ban_duration_hours)

/-- Generator configuration (`reputation_threshold`, `min_attempts_before_ban`,
`ban_duration_hours`). -/
structure GTConfig where
  reputation_threshold : ℚ
  min_attempts_before_ban : Nat
  ban_duration_hours : ℚ

/-- Defaults: threshold 0.70, min attempts 3, ban duration 24 h. -/
def defaultGTConfig : GTConfig :=
  { reputation_threshold := 7 / 10, min_attempts_before_ban := 3, ban_duration_hours := 24 }

/-- Mutable state of `GoldenTicketGenerator`: active tickets keyed by
request id, reputation and ban maps keyed by peer id. -/
structure GTState where
  tickets : String → Option GoldenTicket
  rep : String → Option ScoutReputation
  banned : String → Option BanEntry

/-- The empty generator state. -/
def freshGT : GTState := { tickets := fun _ => none, rep := fun _ => none, banned := fun _ => none }

/-- Whether the ban table currently marks `peer` as banned (the boolean
computed by `is_scout_banned`, before expired-ban cleanup). -/
def isBannedNow (st : GTState) (peer : String) (now : ℚ) : Bool :=
  match st.banned peer with
  | none => false
  | some b => isActive b now

/-- `GoldenTicketGenerator.is_scout_banned`: also purges an expired ban. -/
def isScoutBanned (st : GTState) (peer : String) (now : ℚ) : Bool × GTState :=
  match st.banned peer with
  | none => (false, st)
  | some b =>
    if isActive b now then (true, st)
    else (false, { st with banned := fun p => if p = peer then none else st.banned p })

/-- `GoldenTicketGenerator._should_ban`. -/
def shouldBan (cfg : GTConfig) (st : GTState) (peer : String) : Bool :=
  match st.rep peer with
  | none => false
  | some r =>
    if r.golden_attempts < cfg.min_attempts_before_ban then false
    else decide (accuracy r < cfg.reputation_threshold)

/-- `GoldenTicketGenerator._ban_scout` at wall-clock time `now`. -/
def banScout (cfg : GTConfig) (st : GTState) (peer : String) (now : ℚ) : GTState :=
  let failed := match st.rep peer with
    | some r => r.golden_attempts - r.golden_correct
    | none => 0
  { st with banned := fun p =>
      if p = peer then
        some { banned_at := now, ban_duration_hours := cfg.ban_duration_hours,
               failed_attempts := failed }
      else st.banned p }

/-- `GoldenTicketGenerator._update_reputation` at wall-clock time `now`. -/
def updateReputation (cfg : GTConfig) (st : GTState) (peer : String) (correct : Bool)
    (now : ℚ) : GTState :=
  let r0 := (st.rep peer).getD { golden_attempts := 0, golden_correct := 0 }
  let r1 := recordAttempt r0 correct
  let st1 := { st with rep := fun p => if p = peer then some r1 else st.rep p }
  if shouldBan cfg st1 peer then banScout cfg st1 peer now else st1

/-- `GoldenTicketGenerator.verify_response` (module-level
`verify_golden_ticket`) at wall-clock time `now`. -/
def verifyResponse (cfg : GTConfig) (st : GTState) (request_id scout_peer_id : String)
    (scout_response : PyStr) (now : ℚ) : Option Bool × GTState :=
  match st.tickets request_id with
  | none => (none, st)
  | some ticket =>
    let is_correct := checkAnswer scout_response ticket.expected_answer ticket.tolerance
    let st1 := updateReputation cfg st scout_peer_id is_correct now
    let st2 := { st1 with tickets := fun id => if id = request_id then none else st1.tickets id }
    (some is_correct, st2)

/-- A sequence of Golden Ticket verdicts for one peer, applied in order
(each one a `verify_response` reputation update). -/
def applyVerdicts (cfg : GTConfig) (st : GTState) (peer : String) (vs : List Bool)
    (now : ℚ) : GTState :=
  vs.foldl (fun s v => updateReputation cfg s peer v now) st

/-- `BitNetRuntime.verify_prefix` (shard ABI path), inner loop: walk the
draft, querying the engine argmax at `generated_text ++ accepted`. -/
def verifyDraftGo (e : List String → Option String) (generated_text accepted : List String) :
    List String → List String × Option String
  | [] => (accepted, none)
  | draft_tok :: rest =>
    match e (generated_text ++ accepted) with
    | none => (accepted, none)
    | some expected =>
      if draft_tok = expected then verifyDraftGo e generated_text (accepted ++ [draft_tok]) rest
      else (accepted, some expected)

/-- `BitNetRuntime.verify_prefix` (shard ABI path): the `verify_draft`
callback of `cooperative_generate` (wired in `run.py`). -/
def verifyDraft (e : List String → Option String) (generated_text draft_text : List String) :
    List String × Option String :=
  if draft_text = [] then ([], none) else verifyDraftGo e generated_text [] draft_text

/-- Accumulator-free form of `verifyDraftGo`, used in proofs only:
`verifyDraftGo e g acc d = (acc ++ (go2 e (g ++ acc) d).1, (go2 e (g ++ acc) d).2)`. -/
def go2 (e : List String → Option String) (ctx : List String) :
    List String → List String × Option String
  | [] => ([], none)
  | t :: rest =>
    match e ctx with
    | none => ([], none)
    | some x =>
      if t = x then
        let r := go2 e (ctx ++ [t]) rest
        (t :: r.1, r.2)
      else ([], some x)

/-- One result dict popped from the control plane
(`GET /pop-result → {result: {...}}`); absent fields map to `none` / `[]`. -/
structure DraftResult where
  scout_id : Option String
  peer_id : Option String
  draft_tokens : List String
  draft_text : PyStr

/-- Outcome of one draft poll: `asyncio.TimeoutError`, a falsy result
(`None` or an empty dict), or a result dict. -/
inductive PollOutcome
  | timeout
  | empty
  | got (r : DraftResult)

/-- Environment inputs for one loop iteration: the local model's token,
whether 50 ms have elapsed since the last broadcast, the CSPRNG Golden
Ticket injection decision for that broadcast, the poll outcome and the
current wall-clock time. -/
structure IterInput where
  localTok : Option String
  broadcastDue : Bool
  inject : Option GoldenTicket
  poll : PollOutcome
  now : ℚ

/-- `KvCheckpointState` (the opaque KV payload is not modelled; the engine
is a pure function of the context in this embedding). -/
structure Checkpoint where
  token_count : Nat
  generated_tail : List String
deriving DecidableEq

/-- Per-request configuration of `cooperative_generate`.  `everyN` and
`maxTail` are the checkpoint manager's post-clamp `every_n_tokens` and
`max_generated_tail`. -/
structure LoopConfig where
  maxTokens : Nat
  requestId : String
  hasCkptMgr : Bool
  everyN : Nat
  maxTail : Nat
  gtCfg : GTConfig

/-- Per-request mutable state of `cooperative_generate`. -/
structure LoopState where
  generated : List String
  emitted : Nat
  remoteDisabled : Bool
  gt : GTState
  ckpt : Option Checkpoint

/-- `KvCheckpointManager.maybe_checkpoint`: capture on token cadence,
retaining `generated[-max_generated_tail:]`. -/
def maybeCheckpoint (cfg : LoopConfig) (generated : List String) (emitted : Nat)
    (old : Option Checkpoint) : Option Checkpoint :=
  if emitted = 0 ∨ emitted % cfg.everyN ≠ 0 then old
  else some { token_count := emitted,
              generated_tail := generated.drop (generated.length - cfg.maxTail) }

/-- `scout_id = result.get("scout_id") or result.get("peer_id")`, normalised
to `none` whenever the resulting value is falsy (absent or the empty
string), since every later use is truthiness-guarded. -/
def effScoutId (sc pid : Option String) : Option String :=
  let v := match sc with
    | some s => if s = "" then pid else some s
    | none => pid
  match v with
  | some s => if s = "" then none else some s
  | none => none

/-- The budgeted emission of accepted draft tokens plus the optional
correction: `for tok in accepted: if tokens_emitted >= max_tokens: break;
yield` then `if correction and tokens_emitted < max_tokens: yield`. A
`correction` equal to the empty string is falsy in Python and not emitted. -/
def emitBudgeted (maxTokens emitted : Nat) (accepted : List String)
    (correction : Option String) : List String :=
  let acc := accepted.take (maxTokens - emitted)
  let corr := match correction with
    | some c => if c ≠ "" ∧ emitted + acc.length < maxTokens then [c] else []
    | none => []
  acc ++ corr

/-- Draft verification and emission (`inference.py` lines 339-380): skip an
empty draft, else verify against the engine and emit within budget;
`generated` receives exactly the emitted tokens. -/
def draftPhase (cfg : LoopConfig) (e : List String → Option String) (st : LoopState)
    (r : DraftResult) : List String × LoopState :=
  if r.draft_tokens = [] then ([], st)
  else
    let v := verifyDraft e st.generated r.draft_tokens
    let ems := emitBudgeted cfg.maxTokens st.emitted v.1 v.2
    (ems, { st with generated := st.generated ++ ems, emitted := st.emitted + ems.length })

/-- Golden Ticket response check (`inference.py` lines 329-337): performed
only when both `draft_text` and `scout_id` are truthy; a `False` verdict
drops the draft, `True` or `None` proceeds to draft verification. -/
def ticketPhase (cfg : LoopConfig) (e : List String → Option String) (st : LoopState)
    (sid : Option String) (r : DraftResult) (now : ℚ) : List String × LoopState :=
  match sid with
  | some s =>
    if r.draft_text ≠ [] then
      let vr := verifyResponse cfg.gtCfg st.gt cfg.requestId s r.draft_text now
      let st2 := { st with gt := vr.2 }
      match vr.1 with
      | some false => ([], st2)
      | _ => draftPhase cfg e st2 r
    else draftPhase cfg e st r
  | none => draftPhase cfg e st r

/-- Handling of one poll outcome (`inference.py` lines 270-380), starting
from the state `st1` reached after the local token was emitted: a timeout
disables remote speculation for the rest of the request; a falsy result
restores the latest checkpoint tail when one exists; a result dict runs
the ban check (dropping drafts of banned scouts), then the Golden Ticket
check, then draft verification. -/
def pollPhase (cfg : LoopConfig) (e : List String → Option String) (inp : IterInput)
    (st1 : LoopState) : List String × LoopState :=
  match inp.poll with
  | .timeout => ([], { st1 with remoteDisabled := true })
  | .empty =>
    if cfg.hasCkptMgr then
      match st1.ckpt with
      | some c => ([], { st1 with generated := c.generated_tail })
      | none => ([], st1)
    else ([], st1)
  | .got r =>
    match effScoutId r.scout_id r.peer_id with
    | some s =>
      let bc := isScoutBanned st1.gt s inp.now
      if bc.1 then ([], { st1 with gt := bc.2 })
      else ticketPhase cfg e { st1 with gt := bc.2 } (some s) r inp.now
    | none => ticketPhase cfg e st1 none r inp.now

/-- One iteration of the `while tokens_emitted < max_tokens` body of
`cooperative_generate`, after the local model returned `tok`: yield the
local token, checkpoint on cadence, broadcast (possibly registering a
Golden Ticket for this request id), then — unless remote speculation is
disabled — handle the poll outcome via `pollPhase`. -/
def loopIter (cfg : LoopConfig) (e : List String → Option String) (inp : IterInput)
    (tok : String) (st0 : LoopState) : List String × LoopState :=
  let g1 := st0.generated ++ [tok]
  let em1 := st0.emitted + 1
  let ck1 := if cfg.hasCkptMgr then maybeCheckpoint cfg g1 em1 st0.ckpt else st0.ckpt
  let gt1 :=
    if inp.broadcastDue then
      match inp.inject with
      | some t =>
        { st0.gt with tickets := fun id => if id = cfg.requestId then some t
                                           else st0.gt.tickets id }
      | none => st0.gt
    else st0.gt
  let st1 : LoopState :=
    { generated := g1, emitted := em1, remoteDisabled := st0.remoteDisabled,
      gt := gt1, ckpt := ck1 }
  if st0.remoteDisabled then ([tok], st1)
  else
    let p := pollPhase cfg e inp st1
    (tok :: p.1, p.2)

/-- The `while tokens_emitted < max_tokens` loop, fuel-driven.  Each
iteration emits at least the local token, so `maxTokens - emitted` fuel
suffices (see `loopRun_unfold`). -/
def loopRunAux (cfg : LoopConfig) (e : List String → Option String)
    (env : Nat → IterInput) : Nat → Nat → LoopState → List String × LoopState
  | 0, _, st => ([], st)
  | fuel + 1, k, st =>
    if st.emitted < cfg.maxTokens then
      match (env k).localTok with
      | none => ([], st)
      | some tok =>
        let step := loopIter cfg e (env k) tok st
        let rest := loopRunAux cfg e env fuel (k + 1) step.2
        (step.1 ++ rest.1, rest.2)
    else ([], st)

/-- The generation loop from iteration `k` in state `st`. -/
def loopRun (cfg : LoopConfig) (e : List String → Option String) (env : Nat → IterInput)
    (k : Nat) (st : LoopState) : List String × LoopState :=
  loopRunAux cfg e env (cfg.maxTokens - st.emitted) k st

/-- `cooperative_generate`: the emitted token stream (and final state) for
one request, starting from empty `generated`, zero tokens emitted, remote
speculation enabled, generator state `gt0` and no checkpoint. -/
def cooperativeGenerate (cfg : LoopConfig) (e : List String → Option String)
    (env : Nat → IterInput) (gt0 : GTState) : List String × LoopState :=
  loopRun cfg e env 0
    { generated := [], emitted := 0, remoteDisabled := false, gt := gt0, ckpt := none }

/-- The stream of local tokens from iteration `k`, at most `n` of them:
what a purely local autoregressive session emits. -/
def localStream (env : Nat → IterInput) : Nat → Nat → List String
  | _, 0 => []
  | k, n + 1 =>
    match (env k).localTok with
    | none => []
    | some t => t :: localStream env (k + 1) n

/-- The specification of `verify_prefix` on a draft `d` at session context
`g`: the accepted tokens are exactly the longest prefix of `d` whose
tokens each equal the engine's next argmax at the corresponding position;
the correction is the engine's argmax exactly when a mismatching draft
token was encountered (no correction when the whole draft matched or the
engine yielded no token); and, within budget, the loop emits the accepted
tokens followed by that one correction, in order. -/
def verifyPrefixSpec (e : List String → Option String) (g d : List String) : Prop :=
  ((verifyDraft e g d).1 <+: d)
  ∧ (∀ i, i < (verifyDraft e g d).1.length → e (g ++ d.take i) = d[i]?)
  ∧ (∀ c, (verifyDraft e g d).2 = some c ↔
      (verifyDraft e g d).1.length < d.length
        ∧ e (g ++ (verifyDraft e g d).1) = some c
        ∧ d[(verifyDraft e g d).1.length]? ≠ some c)
  ∧ ((verifyDraft e g d).2 = none → (verifyDraft e g d).1.length < d.length →
      e (g ++ (verifyDraft e g d).1) = none)
  ∧ (∀ maxT em, em + (verifyDraft e g d).1.length + 1 ≤ maxT →
      (∀ c, (verifyDraft e g d).2 = some c → c ≠ "") →
      emitBudgeted maxT em (verifyDraft e g d).1 (verifyDraft e g d).2
        = (verifyDraft e g d).1 ++ (verifyDraft e g d).2.toList)

/-- Concrete engine for witnesses: argmax depends only on the context
length, yielding the sequence "A", "B", "C". -/
def eW : List String → Option String := fun ctx =>
  match ctx.length with
  | 0 => some "A"
  | 1 => some "B"
  | 2 => some "C"
  | _ => none

/-- Witness fixture: loop configuration without a checkpoint manager. -/
def cfgW : LoopConfig :=
  { maxTokens := 10, requestId := "rid", hasCkptMgr := false, everyN := 8, maxTail := 256,
    gtCfg := defaultGTConfig }

/-- Witness fixture: loop configuration with a checkpoint manager. -/
def cfgWC : LoopConfig :=
  { maxTokens := 10, requestId := "rid", hasCkptMgr := true, everyN := 8, maxTail := 256,
    gtCfg := defaultGTConfig }

/-- Witness fixture: generator state in which scout "s1" is banned at time 0
for 24 hours. -/
def gtBanW : GTState :=
  { tickets := fun _ => none, rep := fun _ => none,
    banned := fun p => if p = "s1" then some (⟨0, 24, 3⟩ : BanEntry) else none }

/-- Witness fixture: initial loop state. -/
def stW : LoopState :=
  { generated := [], emitted := 0, remoteDisabled := false, gt := freshGT, ckpt := none }

/-- Witness fixture: loop state whose generator state bans scout "s1". -/
def stBanW : LoopState :=
  { generated := [], emitted := 0, remoteDisabled := false, gt := gtBanW, ckpt := none }

/-- Witness fixture: loop state with remote speculation disabled. -/
def stDisW : LoopState :=
  { generated := [], emitted := 0, remoteDisabled := true, gt := freshGT, ckpt := none }

/-- Witness fixture: loop state holding a KV checkpoint. -/
def stCkW : LoopState :=
  { generated := ["y"], emitted := 1, remoteDisabled := false, gt := freshGT,
    ckpt := some { token_count := 1, generated_tail := ["y"] } }

/-- Witness fixture: a result dict carrying neither scout_id nor peer_id. -/
def rAnonW : DraftResult :=
  { scout_id := none, peer_id := none, draft_tokens := ["A", "B"], draft_text := [] }

/-- Witness fixture: a result dict from scout "s1". -/
def rBanW : DraftResult :=
  { scout_id := some "s1", peer_id := none, draft_tokens := ["A"], draft_text := [] }

/-- Witness fixture: iteration input polling the anonymous result. -/
def inpGotAnonW : IterInput :=
  { localTok := some "x", broadcastDue := false, inject := none, poll := .got rAnonW, now := 0 }

/-- Witness fixture: iteration input polling the result from scout "s1". -/
def inpGotBanW : IterInput :=
  { localTok := some "x", broadcastDue := false, inject := none, poll := .got rBanW, now := 0 }

/-- Witness fixture: iteration input with an empty poll result. -/
def inpEmptyW : IterInput :=
  { localTok := some "x", broadcastDue := false, inject := none, poll := .empty, now := 0 }

/-- Witness fixture: iteration input whose poll times out. -/
def inpTimeoutW : IterInput :=
  { localTok := some "x", broadcastDue := false, inject := none, poll := .timeout, now := 0 }

/-- Witness fixture: environment producing a local token and an empty poll
on every iteration. -/
def envW : Nat → IterInput := fun _ => inpEmptyW

/-- Verdict sequence refuting the "banned iff condition" reading of the
reputation rule: three failures (earning a ban) followed by seven
successes (raising accuracy back to exactly 0.70). -/
def cexVerdicts : List Bool :=
  [false, false, false, true, true, true, true, true, true, true]

/-- Witness fixture: an exact-tolerance Golden Ticket expecting "4". -/
def tickW : GoldenTicket := { prompt := [], expected_answer := [52], tolerance := .exact }

/-- Witness fixture: generator state with `tickW` active for request "r1". -/
def gtTickW : GTState :=
  { tickets := fun id => if id = "r1" then some tickW else none,
    rep := fun _ => none, banned := fun _ => none }

/-- Failing-input fixture for the permanent-ban rule: peer "p" banned at
time 0 with `ban_duration_hours = 0`. -/
def gtZeroBanW : GTState :=
  { tickets := fun _ => none, rep := fun _ => none,
    banned := fun p => if p = "p" then some (⟨0, 0, 0⟩ : BanEntry) else none }

/-! ## Draft verification (C1) -/

lemma emitBudgeted_all (maxT em : Nat) (acc : List String) (corr : Option String)
    (hlen : em + acc.length + 1 ≤ maxT) (hc : ∀ c, corr = some c → c ≠ "") :
    emitBudgeted maxT em acc corr = acc ++ corr.toList := by
  have hacc : acc.take (maxT - em) = acc := List.take_of_length_le (by omega)
  cases corr with
  | none => simp [emitBudgeted, hacc]
  | some c =>
    have hc1 : c ≠ "" := hc c rfl
    simp only [emitBudgeted, hacc, Option.toList_some]
    rw [if_pos ⟨hc1, by omega⟩]

lemma go2_spec (e : List String → Option String) (d : List String) :
    ∀ ctx,
      ((go2 e ctx d).1 <+: d)
      ∧ (∀ i, i < (go2 e ctx d).1.length → e (ctx ++ d.take i) = d[i]?)
      ∧ (∀ c, (go2 e ctx d).2 = some c ↔
          (go2 e ctx d).1.length < d.length ∧ e (ctx ++ (go2 e ctx d).1) = some c
            ∧ d[(go2 e ctx d).1.length]? ≠ some c)
      ∧ ((go2 e ctx d).2 = none → (go2 e ctx d).1.length < d.length →
          e (ctx ++ (go2 e ctx d).1) = none) := by
  induction d with
  | nil => intro ctx; simp [go2]
  | cons t rest ih =>
    intro ctx
    rcases he : e ctx with _ | x
    · refine ⟨by simp [go2, he], by simp [go2, he], ?_, by simp [go2, he]⟩
      intro c
      simp [go2, he]
    · by_cases htx : t = x
      · subst htx
        obtain ⟨ih1, ih2, ih3, ih4⟩ := ih (ctx ++ [t])
        have hg : go2 e ctx (t :: rest)
            = (t :: (go2 e (ctx ++ [t]) rest).1, (go2 e (ctx ++ [t]) rest).2) := by
          simp [go2, he]
        refine ⟨?_, ?_, ?_, ?_⟩
        · rw [hg]
          exact List.cons_prefix_cons.mpr ⟨rfl, ih1⟩
        · rw [hg]
          intro i hi
          cases i with
          | zero => simp [he]
          | succ j =>
            have hj : j < (go2 e (ctx ++ [t]) rest).1.length := by
              simpa using Nat.lt_of_succ_lt_succ hi
            have := ih2 j hj
            simpa [List.append_assoc, List.singleton_append] using this
        · rw [hg]
          intro c
          have h3 := ih3 c
          simpa [List.append_assoc, List.singleton_append, Nat.succ_lt_succ_iff] using h3
        · rw [hg]
          intro hnone hlt
          have h4 := ih4 hnone (by simpa [Nat.succ_lt_succ_iff] using hlt)
          simpa [List.append_assoc, List.singleton_append] using h4
      · have hg : go2 e ctx (t :: rest) = ([], some x) := by
          simp [go2, he, htx]
        refine ⟨by simp [hg], by simp [hg], ?_, by simp [hg]⟩
        intro c
        rw [hg]
        simp only [List.length_nil, List.append_nil, he, List.getElem?_cons_zero]
        constructor
        · rintro h
          have hxc : x = c := by simpa using h
          subst hxc
          exact ⟨by simp, rfl, by simpa using htx⟩
        · rintro ⟨-, h2, -⟩
          exact h2

lemma verifyDraftGo_eq (e : List String → Option String) (g : List String) :
    ∀ (d acc : List String), verifyDraftGo e g acc d
      = (acc ++ (go2 e (g ++ acc) d).1, (go2 e (g ++ acc) d).2) := by
  intro d
  induction d with
  | nil => intro acc; simp [verifyDraftGo, go2]
  | cons t rest ih =>
    intro acc
    rcases he : e (g ++ acc) with _ | x
    · simp [verifyDraftGo, go2, he]
    · by_cases htx : t = x
      · subst htx
        have h1 : verifyDraftGo e g acc (t :: rest) = verifyDraftGo e g (acc ++ [t]) rest := by
          simp [verifyDraftGo, he]
        have h2 : go2 e (g ++ acc) (t :: rest)
            = (t :: (go2 e ((g ++ acc) ++ [t]) rest).1, (go2 e ((g ++ acc) ++ [t]) rest).2) := by
          simp [go2, he]
        rw [h1, ih (acc ++ [t]), h2]
        simp [List.append_assoc, List.singleton_append]
      · simp [verifyDraftGo, go2, he, htx]

lemma verifyDraft_eq_go2 (e : List String → Option String) (g d : List String) :
    verifyDraft e g d = go2 e g d := by
  cases d with
  | nil => simp [verifyDraft, go2]
  | cons t rest =>
    rw [verifyDraft, if_neg (by simp), verifyDraftGo_eq]
    simp

/-- Claim C1: for every non-empty draft and every session state,
`verify_prefix` accepts exactly the longest prefix of the draft whose
tokens each equal the engine's next argmax at the corresponding position,
and returns the engine's argmax as the single correction if and only if a
mismatching draft token was encountered (no correction when the whole
draft matched or the engine yields no token); the loop then emits the
accepted tokens followed by that one correction, in order (within the
`max_tokens` budget, and given that engine pieces are non-empty strings,
which `decode_token` guarantees). -/
theorem c1_verify_prefix (e : List String → Option String) (g d : List String)
    (_hd : d ≠ []) : verifyPrefixSpec e g d := by
  have h := go2_spec e d g
  rw [verifyPrefixSpec, verifyDraft_eq_go2]
  exact ⟨h.1, h.2.1, h.2.2.1, h.2.2.2,
    fun maxT em hlen hc => emitBudgeted_all maxT em _ _ hlen hc⟩

/-- Witness for C1: draft `["A","B","X"]` against engine argmaxes
"A","B","C" — accepted `["A","B"]`, correction "C". -/
theorem c1_verify_prefix_witness :
    (["A", "B", "X"] : List String) ≠ [] ∧ verifyPrefixSpec eW [] ["A", "B", "X"] :=
  ⟨by decide, c1_verify_prefix eW [] ["A", "B", "X"] (by decide)⟩

example : verifyDraft eW [] ["A", "B", "X"] = (["A", "B"], some "C") := by decide
example : verifyDraft eW [] ["A", "B", "C"] = (["A", "B", "C"], none) := by decide
example : emitBudgeted 10 1 ["A", "B"] (some "C") = ["A", "B", "C"] := by decide

/-! ## Loop bookkeeping lemmas -/

lemma emitBudgeted_length (maxT em : Nat) (acc : List String) (corr : Option String) :
    (emitBudgeted maxT em acc corr).length ≤ maxT - em := by
  have ht : (acc.take (maxT - em)).length ≤ maxT - em := by
    rw [List.length_take]
    omega
  cases corr with
  | none =>
    simp only [emitBudgeted, List.append_nil]
    exact ht
  | some c =>
    by_cases h : c ≠ "" ∧ em + (acc.take (maxT - em)).length < maxT
    · simp only [emitBudgeted, if_pos h, List.length_append, List.length_cons,
        List.length_nil]
      omega
    · simp only [emitBudgeted, if_neg h, List.length_append, List.length_nil]
      omega

lemma draftPhase_facts (cfg : LoopConfig) (e : List String → Option String)
    (st : LoopState) (r : DraftResult) :
    (draftPhase cfg e st r).2.emitted = st.emitted + (draftPhase cfg e st r).1.length
    ∧ (draftPhase cfg e st r).2.generated = st.generated ++ (draftPhase cfg e st r).1
    ∧ (draftPhase cfg e st r).2.gt = st.gt
    ∧ (draftPhase cfg e st r).2.remoteDisabled = st.remoteDisabled
    ∧ (draftPhase cfg e st r).1.length ≤ cfg.maxTokens - st.emitted := by
  by_cases h : r.draft_tokens = []
  · simp [draftPhase, h]
  · simp [draftPhase, h, emitBudgeted_length]

lemma ticketPhase_facts (cfg : LoopConfig) (e : List String → Option String)
    (st : LoopState) (sid : Option String) (r : DraftResult) (now : ℚ) :
    (ticketPhase cfg e st sid r now).2.emitted
      = st.emitted + (ticketPhase cfg e st sid r now).1.length
    ∧ (ticketPhase cfg e st sid r now).2.generated
      = st.generated ++ (ticketPhase cfg e st sid r now).1
    ∧ (ticketPhase cfg e st sid r now).2.remoteDisabled = st.remoteDisabled
    ∧ (ticketPhase cfg e st sid r now).1.length ≤ cfg.maxTokens - st.emitted := by
  rcases sid with _ | s
  · have h := draftPhase_facts cfg e st r
    exact ⟨h.1, h.2.1, h.2.2.2.1, h.2.2.2.2⟩
  · by_cases hdt : r.draft_text ≠ []
    · rcases hv : (verifyResponse cfg.gtCfg st.gt cfg.requestId s r.draft_text now).1
        with _ | b
      · have h := draftPhase_facts cfg e
          { st with gt := (verifyResponse cfg.gtCfg st.gt cfg.requestId s r.draft_text now).2 } r
        simp only [ticketPhase, if_pos hdt, hv]
        exact ⟨h.1, h.2.1, h.2.2.2.1, h.2.2.2.2⟩
      · cases b
        · simp [ticketPhase, if_pos hdt, hv]
        · have h := draftPhase_facts cfg e
            { st with gt := (verifyResponse cfg.gtCfg st.gt cfg.requestId s r.draft_text now).2 } r
          simp only [ticketPhase, if_pos hdt, hv]
          exact ⟨h.1, h.2.1, h.2.2.2.1, h.2.2.2.2⟩
    · have h := draftPhase_facts cfg e st r
      simp only [ticketPhase, if_neg hdt]
      exact ⟨h.1, h.2.1, h.2.2.2.1, h.2.2.2.2⟩

lemma isScoutBanned_fst (st : GTState) (p : String) (now : ℚ) :
    (isScoutBanned st p now).1 = isBannedNow st p now := by
  rcases h : st.banned p with _ | b
  · simp [isScoutBanned, isBannedNow, h]
  · by_cases ha : isActive b now
    · simp [isScoutBanned, isBannedNow, h, ha]
    · simp [isScoutBanned, isBannedNow, h, ha]

lemma isBannedNow_congr (st1 st2 : GTState) (h : st1.banned = st2.banned) (p : String)
    (now : ℚ) : isBannedNow st1 p now = isBannedNow st2 p now := by
  unfold isBannedNow
  rw [h]


lemma isScoutBanned_true_snd (st : GTState) (p : String) (now : ℚ)
    (h : (isScoutBanned st p now).1 = true) : (isScoutBanned st p now).2 = st := by
  rcases hb : st.banned p with _ | b
  · simp [isScoutBanned, hb] at h
  · by_cases ha : isActive b now
    · simp [isScoutBanned, hb, ha]
    · simp [isScoutBanned, hb, ha] at h

lemma pollPhase_len (cfg : LoopConfig) (e : List String → Option String) (inp : IterInput)
    (st1 : LoopState) :
    (pollPhase cfg e inp st1).2.emitted = st1.emitted + (pollPhase cfg e inp st1).1.length
    ∧ (pollPhase cfg e inp st1).1.length ≤ cfg.maxTokens - st1.emitted := by
  rcases hp : inp.poll with _ | _ | r
  · simp [pollPhase, hp]
  · by_cases hck : cfg.hasCkptMgr
    · rcases hc : st1.ckpt with _ | c
      · simp [pollPhase, hp, hck, hc]
      · simp [pollPhase, hp, hck, hc]
    · simp [pollPhase, hp, hck]
  · rcases hsid : effScoutId r.scout_id r.peer_id with _ | s
    · have h := ticketPhase_facts cfg e st1 none r inp.now
      simp only [pollPhase, hp, hsid]
      exact ⟨h.1, h.2.2.2⟩
    · by_cases hb : (isScoutBanned st1.gt s inp.now).1 = true
      · simp [pollPhase, hp, hsid, hb]
      · have h := ticketPhase_facts cfg e
          { st1 with gt := (isScoutBanned st1.gt s inp.now).2 } (some s) r inp.now
        simp only [pollPhase, hp, hsid]
        rw [if_neg hb]
        exact ⟨h.1, h.2.2.2⟩

lemma loopIter_eq (cfg : LoopConfig) (e : List String → Option String) (inp : IterInput)
    (tok : String) (st : LoopState) :
    ∃ st1 : LoopState,
      st1.generated = st.generated ++ [tok]
      ∧ st1.emitted = st.emitted + 1
      ∧ st1.remoteDisabled = st.remoteDisabled
      ∧ st1.gt.banned = st.gt.banned
      ∧ st1.gt.rep = st.gt.rep
      ∧ (inp.broadcastDue = false → st1.gt = st.gt)
      ∧ (cfg.hasCkptMgr = true →
          st1.ckpt = maybeCheckpoint cfg (st.generated ++ [tok]) (st.emitted + 1) st.ckpt)
      ∧ loopIter cfg e inp tok st
          = if st.remoteDisabled = true then ([tok], st1)
            else (tok :: (pollPhase cfg e inp st1).1, (pollPhase cfg e inp st1).2) := by
  refine ⟨{ generated := st.generated ++ [tok], emitted := st.emitted + 1,
            remoteDisabled := st.remoteDisabled,
            gt := if inp.broadcastDue then
                match inp.inject with
                | some t =>
                  { st.gt with tickets := fun id => if id = cfg.requestId then some t
                                                    else st.gt.tickets id }
                | none => st.gt
              else st.gt,
            ckpt := if cfg.hasCkptMgr then
                maybeCheckpoint cfg (st.generated ++ [tok]) (st.emitted + 1) st.ckpt
              else st.ckpt },
    rfl, rfl, rfl, ?_, ?_, ?_, ?_, rfl⟩
  · by_cases hbd : inp.broadcastDue
    · rcases inp.inject with _ | t
      · simp [hbd]
      · simp [hbd]
    · simp [hbd]
  · by_cases hbd : inp.broadcastDue
    · rcases inp.inject with _ | t
      · simp [hbd]
      · simp [hbd]
    · simp [hbd]
  · intro h
    simp [h]
  · intro h
    simp [h]

lemma loopIter_emitted (cfg : LoopConfig) (e : List String → Option String)
    (inp : IterInput) (tok : String) (st : LoopState) :
    (loopIter cfg e inp tok st).2.emitted
      = st.emitted + (loopIter cfg e inp tok st).1.length := by
  obtain ⟨st1, hg, he, hrd, hban, hrep, hgt, hck, heq⟩ := loopIter_eq cfg e inp tok st
  rw [heq]
  by_cases h : st.remoteDisabled = true
  · simp [h, he]
  · simp only [if_neg h]
    rw [(pollPhase_len cfg e inp st1).1, he]
    simp [List.length_cons]
    omega

lemma loopIter_fst_len (cfg : LoopConfig) (e : List String → Option String)
    (inp : IterInput) (tok : String) (st : LoopState) :
    1 ≤ (loopIter cfg e inp tok st).1.length := by
  obtain ⟨st1, hg, he, hrd, hban, hrep, hgt, hck, heq⟩ := loopIter_eq cfg e inp tok st
  rw [heq]
  by_cases h : st.remoteDisabled = true
  · simp [h]
  · simp [if_neg h]

lemma loopIter_bound (cfg : LoopConfig) (e : List String → Option String)
    (inp : IterInput) (tok : String) (st : LoopState) (h : st.emitted < cfg.maxTokens) :
    st.emitted + (loopIter cfg e inp tok st).1.length ≤ cfg.maxTokens := by
  obtain ⟨st1, hg, he, hrd, hban, hrep, hgt, hck, heq⟩ := loopIter_eq cfg e inp tok st
  rw [heq]
  by_cases hb : st.remoteDisabled = true
  · simp [hb]
    omega
  · simp only [if_neg hb, List.length_cons]
    have hl := (pollPhase_len cfg e inp st1).2
    rw [he] at hl
    omega

lemma loopIter_disabled (cfg : LoopConfig) (e : List String → Option String)
    (inp : IterInput) (tok : String) (st : LoopState) (h : st.remoteDisabled = true) :
    (loopIter cfg e inp tok st).1 = [tok]
    ∧ (loopIter cfg e inp tok st).2.remoteDisabled = true
    ∧ (loopIter cfg e inp tok st).2.emitted = st.emitted + 1
    ∧ ∀ p, loopIter cfg e inp tok st = loopIter cfg e { inp with poll := p } tok st := by
  refine ⟨by simp [loopIter, h], by simp [loopIter, h], by simp [loopIter, h], ?_⟩
  intro p
  simp [loopIter, h]

lemma loopRunAux_emitted (cfg : LoopConfig) (e : List String → Option String)
    (env : Nat → IterInput) :
    ∀ (fuel k : Nat) (st : LoopState),
      (loopRunAux cfg e env fuel k st).2.emitted
        = st.emitted + (loopRunAux cfg e env fuel k st).1.length := by
  intro fuel
  induction fuel with
  | zero => intro k st; simp [loopRunAux]
  | succ n ih =>
    intro k st
    by_cases h : st.emitted < cfg.maxTokens
    · rcases hl : (env k).localTok with _ | tok
      · simp [loopRunAux, h, hl]
      · simp only [loopRunAux, if_pos h, hl]
        rw [ih, loopIter_emitted]
        simp [List.length_append]
        omega
    · simp [loopRunAux, h]

lemma loopRunAux_len (cfg : LoopConfig) (e : List String → Option String)
    (env : Nat → IterInput) :
    ∀ (fuel k : Nat) (st : LoopState),
      (loopRunAux cfg e env fuel k st).1.length ≤ cfg.maxTokens - st.emitted := by
  intro fuel
  induction fuel with
  | zero => intro k st; simp [loopRunAux]
  | succ n ih =>
    intro k st
    by_cases h : st.emitted < cfg.maxTokens
    · rcases hl : (env k).localTok with _ | tok
      · simp [loopRunAux, h, hl]
      · simp only [loopRunAux, if_pos h, hl]
        have h1 := loopIter_bound cfg e (env k) tok st h
        have h2 := ih (k + 1) (loopIter cfg e (env k) tok st).2
        have h3 := loopIter_emitted cfg e (env k) tok st
        simp only [List.length_append]
        omega
    · simp [loopRunAux, h]

lemma loopRunAux_fuel (cfg : LoopConfig) (e : List String → Option String)
    (env : Nat → IterInput) :
    ∀ (f1 f2 k : Nat) (st : LoopState),
      cfg.maxTokens ≤ st.emitted + f1 → cfg.maxTokens ≤ st.emitted + f2 →
      loopRunAux cfg e env f1 k st = loopRunAux cfg e env f2 k st := by
  intro f1
  induction f1 with
  | zero =>
    intro f2 k st h1 h2
    have hge : ¬ st.emitted < cfg.maxTokens := by omega
    cases f2 with
    | zero => rfl
    | succ m => simp [loopRunAux, hge]
  | succ n ih =>
    intro f2 k st h1 h2
    cases f2 with
    | zero =>
      have hge : ¬ st.emitted < cfg.maxTokens := by omega
      simp [loopRunAux, hge]
    | succ m =>
      by_cases h : st.emitted < cfg.maxTokens
      · rcases hl : (env k).localTok with _ | tok
        · simp [loopRunAux, h, hl]
        · simp only [loopRunAux, if_pos h, hl]
          have hstep : st.emitted + 1 ≤ (loopIter cfg e (env k) tok st).2.emitted := by
            have hfl := loopIter_fst_len cfg e (env k) tok st
            have hem := loopIter_emitted cfg e (env k) tok st
            omega
          rw [ih m (k + 1) (loopIter cfg e (env k) tok st).2 (by omega) (by omega)]
      · simp [loopRunAux, h]

lemma loopRunAux_disabled (cfg : LoopConfig) (e : List String → Option String)
    (env : Nat → IterInput) :
    ∀ (fuel k : Nat) (st : LoopState), st.remoteDisabled = true →
      cfg.maxTokens ≤ st.emitted + fuel →
      (loopRunAux cfg e env fuel k st).1 = localStream env k (cfg.maxTokens - st.emitted) := by
  intro fuel
  induction fuel with
  | zero =>
    intro k st _ hf
    have h0 : cfg.maxTokens - st.emitted = 0 := by omega
    simp [loopRunAux, h0, localStream]
  | succ n ih =>
    intro k st h hf
    by_cases hlt : st.emitted < cfg.maxTokens
    · obtain ⟨m, hm⟩ : ∃ m, cfg.maxTokens - st.emitted = m + 1 :=
        ⟨cfg.maxTokens - st.emitted - 1, by omega⟩
      rcases hl : (env k).localTok with _ | tok
      · rw [hm]
        simp [loopRunAux, hlt, hl, localStream]
      · have hd := loopIter_disabled cfg e (env k) tok st h
        have hrest := ih (k + 1) (loopIter cfg e (env k) tok st).2 hd.2.1
          (by rw [hd.2.2.1]; omega)
        simp only [loopRunAux, if_pos hlt, hl]
        rw [hd.1, hrest, hd.2.2.1, hm]
        have hmm : cfg.maxTokens - (st.emitted + 1) = m := by omega
        rw [hmm]
        simp [localStream, hl]
    · have h0 : cfg.maxTokens - st.emitted = 0 := by omega
      simp [loopRunAux, hlt, h0, localStream]

/-- Sanity: the fuel-driven loop satisfies the `while tokens_emitted <
max_tokens` unfolding, so `cfg.maxTokens` fuel is always enough. -/
theorem loopRun_unfold (cfg : LoopConfig) (e : List String → Option String)
    (env : Nat → IterInput) (k : Nat) (st : LoopState) :
    loopRun cfg e env k st
      = if st.emitted < cfg.maxTokens then
          match (env k).localTok with
          | none => ([], st)
          | some tok =>
            ((loopIter cfg e (env k) tok st).1
                ++ (loopRun cfg e env (k + 1) (loopIter cfg e (env k) tok st).2).1,
              (loopRun cfg e env (k + 1) (loopIter cfg e (env k) tok st).2).2)
        else ([], st) := by
  unfold loopRun
  by_cases h : st.emitted < cfg.maxTokens
  · obtain ⟨m, hm⟩ : ∃ m, cfg.maxTokens - st.emitted = m + 1 :=
      ⟨cfg.maxTokens - st.emitted - 1, by omega⟩
    rw [hm]
    rcases hl : (env k).localTok with _ | tok
    · simp [loopRunAux, h, hl]
    · simp only [loopRunAux, if_pos h, hl, if_pos h]
      have hstep : st.emitted + 1 ≤ (loopIter cfg e (env k) tok st).2.emitted := by
        have hfl := loopIter_fst_len cfg e (env k) tok st
        have hem := loopIter_emitted cfg e (env k) tok st
        omega
      rw [loopRunAux_fuel cfg e env m (cfg.maxTokens - (loopIter cfg e (env k) tok st).2.emitted)
        (k + 1) (loopIter cfg e (env k) tok st).2 (by omega) (by omega)]
  · have h0 : cfg.maxTokens - st.emitted = 0 := by omega
    rw [h0]
    simp [loopRunAux, h]

/-! ## Claims about the cooperative generation loop -/

/-- Claim C4: for every request and every prompt/environment, the total
number of tokens emitted by `cooperative_generate` never exceeds
`max_tokens`, counting local tokens, accepted draft tokens and correction
tokens alike. -/
theorem c4_emitted_le_max_tokens (cfg : LoopConfig) (e : List String → Option String)
    (env : Nat → IterInput) (gt0 : GTState) :
    (cooperativeGenerate cfg e env gt0).1.length ≤ cfg.maxTokens := by
  have h := loopRunAux_len cfg e env cfg.maxTokens 0
    { generated := [], emitted := 0, remoteDisabled := false, gt := gt0, ckpt := none }
  simpa [cooperativeGenerate, loopRun] using h

/-- Claim C5: a token is yielded for each stream position at most once:
the final `tokens_emitted` always equals the starting count plus the
number of yielded tokens (each yield occupies a fresh position), and in an
iteration whose poll comes back empty the loop emits exactly the one
local token — even on the path that restores the latest KV checkpoint and
replaces `generated` by the checkpoint's tail, no tail token is
re-yielded. -/
theorem c5_no_position_reemitted (cfg : LoopConfig) (e : List String → Option String)
    (env : Nat → IterInput) :
    (∀ (fuel k : Nat) (st : LoopState),
      (loopRunAux cfg e env fuel k st).2.emitted
        = st.emitted + (loopRunAux cfg e env fuel k st).1.length)
    ∧ (∀ (inp : IterInput) (tok : String) (st : LoopState),
        st.remoteDisabled = false → inp.poll = .empty → cfg.hasCkptMgr = true →
        (loopIter cfg e inp tok st).1 = [tok]
        ∧ ∀ c, (loopIter cfg e inp tok st).2.ckpt = some c →
            (loopIter cfg e inp tok st).2.generated = c.generated_tail) := by
  refine ⟨loopRunAux_emitted cfg e env, ?_⟩
  intro inp tok st h1 h2 h3
  obtain ⟨st1, hg, he, hrd1, hban, hrep, hgt, hck, heq⟩ := loopIter_eq cfg e inp tok st
  rw [heq, if_neg (by simp [h1])]
  rcases hcc : st1.ckpt with _ | c
  · have hps : pollPhase cfg e inp st1 = ([], st1) := by
      simp [pollPhase, h2, h3, hcc]
    rw [hps]
    refine ⟨rfl, ?_⟩
    intro c hc
    simp only [hcc] at hc
    exact absurd hc (by simp)
  · have hps : pollPhase cfg e inp st1
        = ([], { st1 with generated := c.generated_tail }) := by
      simp [pollPhase, h2, h3, hcc]
    rw [hps]
    refine ⟨rfl, ?_⟩
    intro c2 hc2
    simp only [hcc] at hc2
    simp only [Option.some.injEq] at hc2
    subst hc2
    rfl

/-- Claim C6: after a draft-poll timeout, `remote_disabled` is set for the
remainder of the request: the timed-out iteration emits only the local
token and flips the flag; once the flag is set an iteration ignores the
poll outcome entirely; and from any remote-disabled state the loop emits
exactly the stream of local argmax tokens, until `max_tokens` is reached
or the engine returns no token — it never stalls. -/
theorem c6_timeout_disables_remote (cfg : LoopConfig) (e : List String → Option String) :
    (∀ (inp : IterInput) (tok : String) (st : LoopState),
      st.remoteDisabled = false → inp.poll = .timeout →
      (loopIter cfg e inp tok st).1 = [tok]
      ∧ (loopIter cfg e inp tok st).2.remoteDisabled = true)
    ∧ (∀ (inp : IterInput) (p : PollOutcome) (tok : String) (st : LoopState),
        st.remoteDisabled = true →
        loopIter cfg e inp tok st = loopIter cfg e { inp with poll := p } tok st)
    ∧ (∀ (env : Nat → IterInput) (fuel k : Nat) (st : LoopState),
        st.remoteDisabled = true → cfg.maxTokens ≤ st.emitted + fuel →
        (loopRunAux cfg e env fuel k st).1
          = localStream env k (cfg.maxTokens - st.emitted)) := by
  refine ⟨?_, ?_, ?_⟩
  · intro inp tok st h1 h2
    obtain ⟨st1, hg, he, hrd1, hban, hrep, hgt, hck, heq⟩ := loopIter_eq cfg e inp tok st
    rw [heq, if_neg (by simp [h1])]
    have hps : pollPhase cfg e inp st1 = ([], { st1 with remoteDisabled := true }) := by
      simp [pollPhase, h2]
    rw [hps]
    exact ⟨rfl, rfl⟩
  · intro inp p tok st h
    exact (loopIter_disabled cfg e inp tok st h).2.2.2 p
  · intro env fuel k st h hf
    exact loopRunAux_disabled cfg e env fuel k st h hf

/-- Claim C2: a polled draft whose scout id is banned at the time of the
check is dropped before verification — the iteration emits only the local
token and appends nothing from the draft to `generated`, so a peer with an
active ban contributes zero tokens to the emitted stream. -/
theorem c2_banned_draft_dropped (cfg : LoopConfig) (e : List String → Option String)
    (inp : IterInput) (tok : String) (st : LoopState) (r : DraftResult) (s : String)
    (h1 : st.remoteDisabled = false)
    (h2 : inp.poll = .got r)
    (h3 : effScoutId r.scout_id r.peer_id = some s)
    (h4 : isBannedNow st.gt s inp.now = true) :
    (loopIter cfg e inp tok st).1 = [tok]
    ∧ (loopIter cfg e inp tok st).2.generated = st.generated ++ [tok] := by
  obtain ⟨st1, hg, he, hrd1, hban, hrep, hgt, hck, heq⟩ := loopIter_eq cfg e inp tok st
  rw [heq, if_neg (by simp [h1])]
  have hbn : isBannedNow st1.gt s inp.now = true := by
    rw [isBannedNow_congr st1.gt st.gt hban]
    exact h4
  have hbb : (isScoutBanned st1.gt s inp.now).1 = true := by
    rw [isScoutBanned_fst]
    exact hbn
  have hps : pollPhase cfg e inp st1 = ([], st1) := by
    simp only [pollPhase, h2, h3]
    rw [if_pos hbb, isScoutBanned_true_snd st1.gt s inp.now hbb]
  rw [hps]
  exact ⟨rfl, hg⟩

/-- Claim C10: a polled result carrying neither a `scout_id` nor a
`peer_id` undergoes no ban check and no Golden Ticket verification (the
generator state is untouched), yet its `draft_tokens` are still verified
against the engine and emitted within budget. -/
theorem c10_anonymous_result_still_verified (cfg : LoopConfig)
    (e : List String → Option String) (inp : IterInput) (tok : String) (st : LoopState)
    (r : DraftResult)
    (h1 : st.remoteDisabled = false)
    (h2 : inp.poll = .got r)
    (h3 : r.scout_id = none)
    (h4 : r.peer_id = none)
    (h5 : inp.broadcastDue = false)
    (h6 : r.draft_tokens ≠ []) :
    (loopIter cfg e inp tok st).2.gt = st.gt
    ∧ (loopIter cfg e inp tok st).1
        = tok :: emitBudgeted cfg.maxTokens (st.emitted + 1)
            (verifyDraft e (st.generated ++ [tok]) r.draft_tokens).1
            (verifyDraft e (st.generated ++ [tok]) r.draft_tokens).2 := by
  obtain ⟨st1, hg, he, hrd1, hban, hrep, hgt, hck, heq⟩ := loopIter_eq cfg e inp tok st
  rw [heq, if_neg (by simp [h1])]
  have hsid : effScoutId r.scout_id r.peer_id = none := by
    simp [effScoutId, h3, h4]
  have hps : pollPhase cfg e inp st1 = draftPhase cfg e st1 r := by
    simp [pollPhase, h2, hsid, ticketPhase]
  rw [hps]
  constructor
  · rw [(draftPhase_facts cfg e st1 r).2.2.1]
    exact hgt h5
  · have hdp1 : (draftPhase cfg e st1 r).1
        = emitBudgeted cfg.maxTokens st1.emitted
            (verifyDraft e st1.generated r.draft_tokens).1
            (verifyDraft e st1.generated r.draft_tokens).2 := by
      simp [draftPhase, h6]
    rw [hdp1, hg, he]

/-- Witness for C5: an empty poll with a live checkpoint restores the tail
yet the iteration emits only the local token. -/
theorem c5_no_position_reemitted_witness :
    stCkW.remoteDisabled = false ∧ inpEmptyW.poll = .empty ∧ cfgWC.hasCkptMgr = true
    ∧ ((loopIter cfgWC eW inpEmptyW "x" stCkW).1 = ["x"]
       ∧ ∀ c, (loopIter cfgWC eW inpEmptyW "x" stCkW).2.ckpt = some c →
           (loopIter cfgWC eW inpEmptyW "x" stCkW).2.generated = c.generated_tail) :=
  ⟨rfl, rfl, rfl,
    (c5_no_position_reemitted cfgWC eW envW).2 inpEmptyW "x" stCkW rfl rfl rfl⟩

/-- Witness for C6: a timeout iteration emits only the local token and sets
the flag; a remote-disabled run emits exactly the local stream. -/
theorem c6_timeout_disables_remote_witness :
    (stW.remoteDisabled = false ∧ inpTimeoutW.poll = .timeout
      ∧ (loopIter cfgW eW inpTimeoutW "x" stW).1 = ["x"]
      ∧ (loopIter cfgW eW inpTimeoutW "x" stW).2.remoteDisabled = true)
    ∧ (stDisW.remoteDisabled = true ∧ cfgW.maxTokens ≤ stDisW.emitted + 10
      ∧ (loopRunAux cfgW eW envW 10 0 stDisW).1
          = localStream envW 0 (cfgW.maxTokens - stDisW.emitted)) := by
  have h1 := (c6_timeout_disables_remote cfgW eW).1 inpTimeoutW "x" stW rfl rfl
  have h3 := (c6_timeout_disables_remote cfgW eW).2.2 envW 10 0 stDisW rfl (by decide)
  exact ⟨⟨rfl, rfl, h1.1, h1.2⟩, ⟨rfl, by decide, h3⟩⟩

/-- Witness for C2: scout "s1" banned at time 0 for 24 h; its polled draft
is dropped and the iteration emits only the local token. -/
theorem c2_banned_draft_dropped_witness :
    stBanW.remoteDisabled = false
    ∧ inpGotBanW.poll = .got rBanW
    ∧ effScoutId rBanW.scout_id rBanW.peer_id = some "s1"
    ∧ isBannedNow stBanW.gt "s1" inpGotBanW.now = true
    ∧ (loopIter cfgW eW inpGotBanW "x" stBanW).1 = ["x"]
    ∧ (loopIter cfgW eW inpGotBanW "x" stBanW).2.generated = stBanW.generated ++ ["x"] := by
  have h4 : isBannedNow stBanW.gt "s1" inpGotBanW.now = true := by
    norm_num [stBanW, gtBanW, isBannedNow, isActive, inpGotBanW]
  have h := c2_banned_draft_dropped cfgW eW inpGotBanW "x" stBanW rBanW "s1" rfl rfl
    (by decide) h4
  exact ⟨rfl, rfl, by decide, h4, h.1, h.2⟩

/-- Witness for C10: a result with neither scout_id nor peer_id leaves the
generator state untouched and still has its draft verified and emitted. -/
theorem c10_anonymous_result_still_verified_witness :
    stW.remoteDisabled = false
    ∧ inpGotAnonW.poll = .got rAnonW
    ∧ rAnonW.scout_id = none ∧ rAnonW.peer_id = none
    ∧ inpGotAnonW.broadcastDue = false
    ∧ rAnonW.draft_tokens ≠ []
    ∧ (loopIter cfgW eW inpGotAnonW "x" stW).2.gt = stW.gt
    ∧ (loopIter cfgW eW inpGotAnonW "x" stW).1
        = "x" :: emitBudgeted cfgW.maxTokens (stW.emitted + 1)
            (verifyDraft eW (stW.generated ++ ["x"]) rAnonW.draft_tokens).1
            (verifyDraft eW (stW.generated ++ ["x"]) rAnonW.draft_tokens).2 := by
  have h := c10_anonymous_result_still_verified cfgW eW inpGotAnonW "x" stW rAnonW
    rfl rfl rfl rfl rfl (by decide)
  exact ⟨rfl, rfl, rfl, rfl, rfl, by decide, h.1, h.2⟩

/-! ## Reputation, bans and Golden Ticket verification (C3, C8, C9) -/

lemma updateReputation_rep (cfg : GTConfig) (st : GTState) (peer : String) (v : Bool)
    (now : ℚ) :
    (updateReputation cfg st peer v now).rep peer
      = some (recordAttempt ((st.rep peer).getD ⟨0, 0⟩) v) := by
  simp only [updateReputation]
  split
  · simp [banScout]
  · simp

lemma shouldBan_eq (cfg : GTConfig) (st : GTState) (peer : String) (r : ScoutReputation)
    (h : st.rep peer = some r) :
    shouldBan cfg st peer
      = decide (cfg.min_attempts_before_ban ≤ r.golden_attempts
          ∧ accuracy r < cfg.reputation_threshold) := by
  simp only [shouldBan, h]
  rcases Nat.lt_or_ge r.golden_attempts cfg.min_attempts_before_ban with h2 | h2
  · rw [if_pos h2]
    have hno : ¬ (cfg.min_attempts_before_ban ≤ r.golden_attempts
        ∧ accuracy r < cfg.reputation_threshold) := by
      rintro ⟨ha, -⟩
      omega
    simp [hno]
  · rw [if_neg (by omega)]
    have ha : cfg.min_attempts_before_ban ≤ r.golden_attempts := h2
    simp [ha]

lemma updateReputation_banned (cfg : GTConfig) (st : GTState) (peer : String) (v : Bool)
    (now : ℚ) :
    (updateReputation cfg st peer v now).banned peer
      = if cfg.min_attempts_before_ban
              ≤ (recordAttempt ((st.rep peer).getD ⟨0, 0⟩) v).golden_attempts
            ∧ accuracy (recordAttempt ((st.rep peer).getD ⟨0, 0⟩) v)
              < cfg.reputation_threshold
        then some ⟨now, cfg.ban_duration_hours,
            (recordAttempt ((st.rep peer).getD ⟨0, 0⟩) v).golden_attempts
              - (recordAttempt ((st.rep peer).getD ⟨0, 0⟩) v).golden_correct⟩
        else st.banned peer := by
  simp only [updateReputation]
  rw [shouldBan_eq cfg _ peer (recordAttempt ((st.rep peer).getD ⟨0, 0⟩) v) (by simp)]
  by_cases hc : cfg.min_attempts_before_ban
        ≤ (recordAttempt ((st.rep peer).getD ⟨0, 0⟩) v).golden_attempts
      ∧ accuracy (recordAttempt ((st.rep peer).getD ⟨0, 0⟩) v) < cfg.reputation_threshold
  · rw [if_pos (by simp [hc]), if_pos hc]
    simp [banScout]
  · rw [if_neg (by simp [hc]), if_neg hc]

lemma applyVerdicts_cons (cfg : GTConfig) (st : GTState) (p : String) (v : Bool)
    (vs : List Bool) (now : ℚ) :
    applyVerdicts cfg st p (v :: vs) now
      = applyVerdicts cfg (updateReputation cfg st p v now) p vs now := by
  simp [applyVerdicts]

lemma updateReputation_true_diag (st : GTState) (p : String) (now : ℚ) (k : Nat)
    (hrep : st.rep p = some ⟨k, k⟩ ∨ (st.rep p = none ∧ k = 0))
    (hban : st.banned p = none) :
    (updateReputation defaultGTConfig st p true now).rep p = some ⟨k + 1, k + 1⟩
    ∧ (updateReputation defaultGTConfig st p true now).banned p = none := by
  have hr : (st.rep p).getD ⟨0, 0⟩ = (⟨k, k⟩ : ScoutReputation) := by
    rcases hrep with h | ⟨h, hk⟩
    · simp [h]
    · simp [h, hk]
  have hrec : recordAttempt ((st.rep p).getD ⟨0, 0⟩) true
      = (⟨k + 1, k + 1⟩ : ScoutReputation) := by
    rw [hr]
    simp [recordAttempt]
  constructor
  · rw [updateReputation_rep, hrec]
  · rw [updateReputation_banned, hrec]
    rw [if_neg, hban]
    rintro ⟨-, hlt⟩
    have hacc : accuracy (⟨k + 1, k + 1⟩ : ScoutReputation) = 1 := by
      simp only [accuracy]
      rw [if_neg (by omega)]
      rw [div_self (by exact_mod_cast Nat.succ_ne_zero k)]
    rw [hacc] at hlt
    norm_num [defaultGTConfig] at hlt

lemma allTrue_never_banned (p : String) (now : ℚ) :
    ∀ (n : Nat) (st : GTState) (k : Nat),
      (st.rep p = some ⟨k, k⟩ ∨ (st.rep p = none ∧ k = 0)) → st.banned p = none →
      (applyVerdicts defaultGTConfig st p (List.replicate n true) now).banned p = none := by
  intro n
  induction n with
  | zero =>
    intro st k h hb
    simpa [applyVerdicts] using hb
  | succ m ih =>
    intro st k h hb
    rw [List.replicate_succ, applyVerdicts_cons]
    have hstep := updateReputation_true_diag st p now k h hb
    exact ih (updateReputation defaultGTConfig st p true now) (k + 1) (Or.inl hstep.1)
      hstep.2

/-- Claim C3, amended: each Golden Ticket verdict increments the peer's
attempts by one and increments correct exactly when the verdict is true;
a fresh ban entry with `failed_attempts = attempts − correct` is issued if
and only if `attempts ≥ min_attempts_before_ban` and
`accuracy < reputation_threshold` — otherwise the previous ban state
persists (so a peer banned earlier can remain banned after an update even
when the condition no longer holds).  With the defaults (threshold 0.70,
min attempts 3), a scout whose every verdict is true is never banned, and
a scout whose every verdict is false is banned once attempts reaches 3. -/
theorem c3_reputation_and_ban_amended (cfg : GTConfig) (st : GTState) (peer : String)
    (v : Bool) (now : ℚ) :
    ((updateReputation cfg st peer v now).rep peer
        = some (recordAttempt ((st.rep peer).getD ⟨0, 0⟩) v))
    ∧ ((updateReputation cfg st peer v now).banned peer
        = if cfg.min_attempts_before_ban
              ≤ (recordAttempt ((st.rep peer).getD ⟨0, 0⟩) v).golden_attempts
            ∧ accuracy (recordAttempt ((st.rep peer).getD ⟨0, 0⟩) v)
              < cfg.reputation_threshold
          then some ⟨now, cfg.ban_duration_hours,
              (recordAttempt ((st.rep peer).getD ⟨0, 0⟩) v).golden_attempts
                - (recordAttempt ((st.rep peer).getD ⟨0, 0⟩) v).golden_correct⟩
          else st.banned peer)
    ∧ (∀ n : Nat,
        (applyVerdicts defaultGTConfig freshGT peer (List.replicate n true) now).banned
          peer = none)
    ∧ ((applyVerdicts defaultGTConfig freshGT peer (List.replicate 3 false) now).banned
        peer = some ⟨now, 24, 3⟩)
    ∧ isBannedNow (applyVerdicts defaultGTConfig freshGT peer (List.replicate 3 false) now)
        peer now = true := by
  have h3 : (applyVerdicts defaultGTConfig freshGT peer (List.replicate 3 false) now).banned
      peer = some ⟨now, 24, 3⟩ := by
    norm_num [List.replicate, applyVerdicts, updateReputation, recordAttempt, shouldBan,
      banScout, accuracy, freshGT, defaultGTConfig]
  refine ⟨updateReputation_rep cfg st peer v now, updateReputation_banned cfg st peer v now,
    ?_, h3, ?_⟩
  · intro n
    exact allTrue_never_banned peer now n freshGT 0 (Or.inr ⟨rfl, rfl⟩) rfl
  · simp only [isBannedNow, h3, isActive]
    simp only [sub_self, zero_div]
    norm_num

/-- Counterexample to C3 as stated: after verdicts F F F T T T T T T T the
peer has attempts 10 and correct 7, so the claimed ban condition
(attempts ≥ 3 and accuracy < 0.70) is false — yet the peer is still banned,
because the ban entry issued at the third verdict persists. -/
theorem c3_banned_iff_counterexample :
    ((applyVerdicts defaultGTConfig freshGT "p" cexVerdicts 0).rep "p" = some ⟨10, 7⟩)
    ∧ ¬ (defaultGTConfig.min_attempts_before_ban
          ≤ (ScoutReputation.mk 10 7).golden_attempts
        ∧ accuracy ⟨10, 7⟩ < defaultGTConfig.reputation_threshold)
    ∧ isBannedNow (applyVerdicts defaultGTConfig freshGT "p" cexVerdicts 0) "p" 0 = true := by
  refine ⟨?_, ?_, ?_⟩
  · norm_num [cexVerdicts, applyVerdicts, updateReputation, recordAttempt, shouldBan,
      banScout, accuracy, freshGT, defaultGTConfig]
  · rintro ⟨-, hlt⟩
    norm_num [accuracy, defaultGTConfig] at hlt
  · norm_num [cexVerdicts, applyVerdicts, updateReputation, recordAttempt, shouldBan,
      banScout, accuracy, freshGT, defaultGTConfig, isBannedNow, isActive]

/-- Claim C8: `verify_golden_ticket` returns `None` with no state change
for a request id without an active ticket; with an active ticket it
returns the boolean verdict, records exactly one reputation attempt for
the responding scout, and removes the ticket, so a second verification
call with the same request id returns `None`. -/
lemma verifyResponse_none (cfg : GTConfig) (st : GTState) (rid scout : String)
    (resp : PyStr) (now : ℚ) (h : st.tickets rid = none) :
    verifyResponse cfg st rid scout resp now = (none, st) := by
  simp [verifyResponse, h]

theorem c8_verify_golden_ticket (cfg : GTConfig) (st : GTState) (rid scout : String)
    (resp : PyStr) (now : ℚ) :
    (st.tickets rid = none → verifyResponse cfg st rid scout resp now = (none, st))
    ∧ (∀ t, st.tickets rid = some t →
        (verifyResponse cfg st rid scout resp now).1
          = some (checkAnswer resp t.expected_answer t.tolerance)
        ∧ (verifyResponse cfg st rid scout resp now).2.rep scout
          = some (recordAttempt ((st.rep scout).getD ⟨0, 0⟩)
              (checkAnswer resp t.expected_answer t.tolerance))
        ∧ (verifyResponse cfg st rid scout resp now).2.tickets rid = none
        ∧ ∀ (cfg2 : GTConfig) (scout2 : String) (resp2 : PyStr) (now2 : ℚ),
            verifyResponse cfg2 (verifyResponse cfg st rid scout resp now).2 rid scout2
                resp2 now2
              = (none, (verifyResponse cfg st rid scout resp now).2)) := by
  constructor
  · intro h
    exact verifyResponse_none cfg st rid scout resp now h
  · intro t ht
    have h1 : (verifyResponse cfg st rid scout resp now).1
        = some (checkAnswer resp t.expected_answer t.tolerance) := by
      simp [verifyResponse, ht]
    have h2 : (verifyResponse cfg st rid scout resp now).2.tickets rid = none := by
      simp [verifyResponse, ht]
    refine ⟨h1, ?_, h2, ?_⟩
    · simp only [verifyResponse, ht]
      rw [← updateReputation_rep cfg st scout
        (checkAnswer resp t.expected_answer t.tolerance) now]
    · intro cfg2 scout2 resp2 now2
      exact verifyResponse_none cfg2 _ rid scout2 resp2 now2 h2

/-- Witness for C8: ticket "r1" expects "4" (exact): verification of "4"
returns true, removes the ticket, and re-verification returns `None`;
request "r0" has no ticket and is untouched. -/
theorem c8_verify_golden_ticket_witness :
    (gtTickW.tickets "r0" = none
      ∧ verifyResponse defaultGTConfig gtTickW "r0" "s" [] 0 = (none, gtTickW))
    ∧ (gtTickW.tickets "r1" = some tickW
      ∧ checkAnswer [52] tickW.expected_answer tickW.tolerance = true
      ∧ (verifyResponse defaultGTConfig gtTickW "r1" "s" [52] 0).1
          = some (checkAnswer [52] tickW.expected_answer tickW.tolerance)
      ∧ (verifyResponse defaultGTConfig gtTickW "r1" "s" [52] 0).2.rep "s"
          = some (recordAttempt ((gtTickW.rep "s").getD ⟨0, 0⟩)
              (checkAnswer [52] tickW.expected_answer tickW.tolerance))
      ∧ (verifyResponse defaultGTConfig gtTickW "r1" "s" [52] 0).2.tickets "r1" = none
      ∧ verifyResponse defaultGTConfig
            (verifyResponse defaultGTConfig gtTickW "r1" "s" [52] 0).2 "r1" "s2" [] 1
          = (none, (verifyResponse defaultGTConfig gtTickW "r1" "s" [52] 0).2)) := by
  have hnone := (c8_verify_golden_ticket defaultGTConfig gtTickW "r0" "s" [] 0).1 (by decide)
  have hmain := (c8_verify_golden_ticket defaultGTConfig gtTickW "r1" "s" [52] 0).2 tickW
    (by decide)
  exact ⟨⟨by decide, hnone⟩,
    ⟨by decide, by decide, hmain.1, hmain.2.1, hmain.2.2.1,
      hmain.2.2.2 defaultGTConfig "s2" [] 1⟩⟩

/-- Claim C9 (code behaviour at the failing input): a ban recorded with
`ban_duration_hours = 0` is inactive from the very moment it is issued —
`is_banned` returns false at the ban time and at every later time —
because `(now − banned_at)/3600 < duration_hours` is `0 < 0` at issue
time.  The documented "0 = permanent" behaviour does not hold. -/
theorem c9_zero_duration_ban_inactive :
    isBannedNow gtZeroBanW "p" 0 = false
    ∧ isBannedNow gtZeroBanW "p" 1000000 = false
    ∧ (isScoutBanned gtZeroBanW "p" 5).1 = false
    ∧ (∀ now : ℚ, 0 ≤ now → isActive ⟨0, 0, 0⟩ now = false) := by
  refine ⟨?_, ?_, ?_, ?_⟩
  · norm_num [isBannedNow, gtZeroBanW, isActive]
  · norm_num [isBannedNow, gtZeroBanW, isActive]
  · norm_num [isScoutBanned, gtZeroBanW, isActive]
  · intro now h
    simp only [isActive, decide_eq_false_iff_not, not_lt]
    rw [sub_zero]
    exact div_nonneg h (by norm_num)

/-- Witness for C9: two hours after a zero-duration ban the entry is
already inactive. -/
theorem c9_zero_duration_ban_inactive_witness :
    (0 : ℚ) ≤ 7200 ∧ isActive ⟨0, 0, 0⟩ 7200 = false :=
  ⟨by norm_num, c9_zero_duration_ban_inactive.2.2.2 7200 (by norm_num)⟩

/-! ## Answer checking (C7): invariance of number extraction -/

lemma isDigitN_lowerN (c : Nat) : isDigitN (lowerN c) = isDigitN c := by
  by_cases h : 65 ≤ c ∧ c ≤ 90
  · simp only [lowerN, if_pos h, isDigitN, decide_eq_decide]
    omega
  · simp [lowerN, if_neg h]

lemma lowerN_eq_45 (c : Nat) : lowerN c = 45 ↔ c = 45 := by
  unfold lowerN
  split <;> omega

lemma lowerN_eq_46 (c : Nat) : lowerN c = 46 ↔ c = 46 := by
  unfold lowerN
  split <;> omega

lemma lowerN_digit (c : Nat) (h : isDigitN c = true) : lowerN c = c := by
  have hc : 48 ≤ c ∧ c ≤ 57 := by simpa [isDigitN] using h
  unfold lowerN
  rw [if_neg (by omega)]

lemma takeWhile_lowerN (s : PyStr) :
    (s.map lowerN).takeWhile isDigitN = s.takeWhile isDigitN := by
  induction s with
  | nil => rfl
  | cons c cs ih =>
    simp only [List.map_cons, List.takeWhile_cons, isDigitN_lowerN]
    by_cases h : isDigitN c = true
    · simp [h, lowerN_digit c h, ih]
    · simp [h]

lemma dropWhile_lowerN (s : PyStr) :
    (s.map lowerN).dropWhile isDigitN = (s.dropWhile isDigitN).map lowerN := by
  induction s with
  | nil => rfl
  | cons c cs ih =>
    simp only [List.map_cons, List.dropWhile_cons, isDigitN_lowerN]
    by_cases h : isDigitN c = true
    · simp [h, ih]
    · simp [h]

lemma matchNumCore_lowerN (neg : Bool) (s : PyStr) :
    matchNumCore neg (s.map lowerN)
      = (matchNumCore neg s).map (fun pr => (pr.1, pr.2.map lowerN)) := by
  simp only [matchNumCore]
  rw [takeWhile_lowerN, dropWhile_lowerN]
  by_cases hds : s.takeWhile isDigitN = []
  · simp [hds]
  · rw [if_neg hds, if_neg hds]
    rcases hr : s.dropWhile isDigitN with _ | ⟨c, r2⟩
    · simp
    · simp only [List.map_cons]
      by_cases hc : c = 46
      · subst hc
        have h46 : lowerN 46 = 46 := by norm_num [lowerN]
        rw [h46, if_pos rfl, if_pos rfl]
        rw [takeWhile_lowerN, dropWhile_lowerN]
        simp
      · have hlc : lowerN c ≠ 46 := by
          rw [Ne, lowerN_eq_46]
          exact hc
        rw [if_neg hlc, if_neg hc]
        simp

lemma matchNum_lowerN (s : PyStr) :
    matchNum (s.map lowerN) = (matchNum s).map (fun pr => (pr.1, pr.2.map lowerN)) := by
  rcases s with _ | ⟨c, rest⟩
  · rfl
  · simp only [List.map_cons, matchNum]
    by_cases hc : c = 45
    · subst hc
      have h45 : lowerN 45 = 45 := by norm_num [lowerN]
      rw [h45, if_pos rfl, if_pos rfl, matchNumCore_lowerN]
    · have h1 : lowerN c ≠ 45 := by
        rw [Ne, lowerN_eq_45]
        exact hc
      rw [if_neg h1, if_neg hc, ← List.map_cons, matchNumCore_lowerN]

lemma length_dropWhile_le (p : Nat → Bool) (l : PyStr) :
    (l.dropWhile p).length ≤ l.length := by
  induction l with
  | nil => simp
  | cons c cs ih =>
    rw [List.dropWhile_cons]
    split
    · simp only [List.length_cons]
      omega
    · simp

lemma matchNumCore_length (neg : Bool) (s t r : PyStr)
    (h : matchNumCore neg s = some (t, r)) : r.length < s.length := by
  have hsplit : (s.takeWhile isDigitN).length + (s.dropWhile isDigitN).length
      = s.length := by
    conv_rhs => rw [← List.takeWhile_append_dropWhile (p := isDigitN) (l := s)]
    rw [List.length_append]
  by_cases hds : s.takeWhile isDigitN = []
  · simp [matchNumCore, hds] at h
  · have hds1 : 1 ≤ (s.takeWhile isDigitN).length := by
      rcases hq : s.takeWhile isDigitN with _ | _
      · exact absurd hq hds
      · simp
    rcases hr : s.dropWhile isDigitN with _ | ⟨c, r2⟩
    · simp only [matchNumCore, hds, hr, if_false, Option.some.injEq, Prod.mk.injEq] at h
      obtain ⟨-, h2⟩ := h
      rw [hr] at hsplit
      simp only [List.length_nil] at hsplit
      rw [← h2]
      simp only [List.length_nil]
      omega
    · by_cases hc : c = 46
      · subst hc
        simp [matchNumCore, hds, hr] at h
        obtain ⟨-, h2⟩ := h
        have hd2 : r.length ≤ r2.length := by
          rw [← h2]
          exact length_dropWhile_le _ _
        rw [hr] at hsplit
        simp only [List.length_cons] at hsplit
        omega
      · simp [matchNumCore, hds, hr, hc] at h
        obtain ⟨-, h2⟩ := h
        have hd2 : r.length = r2.length + 1 := by
          rw [← h2]
          simp
        rw [hr] at hsplit
        simp only [List.length_cons] at hsplit
        omega

lemma matchNum_length (s t r : PyStr) (h : matchNum s = some (t, r)) :
    r.length < s.length := by
  rcases s with _ | ⟨c, rest⟩
  · simp [matchNum] at h
  · simp only [matchNum] at h
    by_cases hc : c = 45
    · rw [if_pos hc] at h
      have := matchNumCore_length true rest t r h
      simp only [List.length_cons]
      omega
    · rw [if_neg hc] at h
      exact matchNumCore_length false (c :: rest) t r h

lemma findNumsF_nil (f : Nat) : findNumsF f [] = [] := by
  cases f <;> rfl

lemma findNumsF_fuel :
    ∀ (n f1 f2 : Nat) (s : PyStr), s.length ≤ n → s.length ≤ f1 → s.length ≤ f2 →
      findNumsF f1 s = findNumsF f2 s := by
  intro n
  induction n with
  | zero =>
    intro f1 f2 s hn _ _
    have hs : s = [] := List.eq_nil_of_length_eq_zero (by omega)
    subst hs
    rw [findNumsF_nil, findNumsF_nil]
  | succ m ih =>
    intro f1 f2 s hn h1 h2
    rcases s with _ | ⟨c, cs⟩
    · rw [findNumsF_nil, findNumsF_nil]
    · simp only [List.length_cons] at hn h1 h2
      rcases f1 with _ | f1p
      · omega
      · rcases f2 with _ | f2p
        · omega
        · rcases hm : matchNum (c :: cs) with _ | ⟨t, r⟩
          · simp only [findNumsF, hm]
            exact ih f1p f2p cs (by omega) (by omega) (by omega)
          · have hlen := matchNum_length (c :: cs) t r hm
            simp only [List.length_cons] at hlen
            simp only [findNumsF, hm]
            rw [ih f1p f2p r (by omega) (by omega) (by omega)]

lemma findNumsF_eq_findNums (f : Nat) (s : PyStr) (h : s.length ≤ f) :
    findNumsF f s = findNums s :=
  findNumsF_fuel f f s.length s h h le_rfl

lemma findNumsF_lowerN :
    ∀ (n f : Nat) (s : PyStr), s.length ≤ n → s.length ≤ f →
      findNumsF f (s.map lowerN) = findNumsF f s := by
  intro n
  induction n with
  | zero =>
    intro f s hn _
    have hs : s = [] := List.eq_nil_of_length_eq_zero (by omega)
    subst hs
    simp [findNumsF_nil]
  | succ m ih =>
    intro f s hn hf
    rcases s with _ | ⟨c, cs⟩
    · simp [findNumsF_nil]
    · rcases f with _ | fp
      · simp at hf
      · simp only [List.length_cons] at hn hf
        simp only [List.map_cons, findNumsF]
        have hml : matchNum (lowerN c :: cs.map lowerN)
            = (matchNum (c :: cs)).map (fun pr => (pr.1, pr.2.map lowerN)) := by
          rw [← List.map_cons]
          exact matchNum_lowerN (c :: cs)
        rcases hm : matchNum (c :: cs) with _ | ⟨t, r⟩
        · rw [hm] at hml
          simp only [hml, Option.map_none']
          exact ih fp cs (by omega) (by omega)
        · rw [hm] at hml
          simp only [hml, Option.map_some']
          have hlen := matchNum_length (c :: cs) t r hm
          simp only [List.length_cons] at hlen
          rw [ih fp r (by omega) (by omega)]

lemma findNums_lowerN (s : PyStr) : findNums (s.map lowerN) = findNums s := by
  have h1 : (s.map lowerN).length = s.length := by simp
  unfold findNums
  rw [h1]
  exact findNumsF_lowerN s.length s.length s le_rfl le_rfl

lemma isSpaceN_not_digit (x : Nat) (h : isSpaceN x = true) : isDigitN x = false := by
  simp only [isSpaceN, decide_eq_true_eq] at h
  simp only [isDigitN, decide_eq_false_iff_not]
  omega

lemma isSpaceN_ne_45 (x : Nat) (h : isSpaceN x = true) : x ≠ 45 := by
  simp only [isSpaceN, decide_eq_true_eq] at h
  omega

lemma isSpaceN_ne_46 (x : Nat) (h : isSpaceN x = true) : x ≠ 46 := by
  simp only [isSpaceN, decide_eq_true_eq] at h
  omega

lemma takeWhile_append_fail (p : Nat → Bool) (a b : PyStr)
    (hb : ∀ x ∈ b, p x = false) : (a ++ b).takeWhile p = a.takeWhile p := by
  induction a with
  | nil =>
    simp only [List.nil_append, List.takeWhile_nil]
    rcases b with _ | ⟨y, ys⟩
    · rfl
    · rw [List.takeWhile_cons, hb y (by simp)]
      simp
  | cons c a2 ih =>
    simp only [List.cons_append, List.takeWhile_cons]
    by_cases hc : p c = true
    · simp [hc, ih]
    · simp [hc]

lemma dropWhile_append_fail (p : Nat → Bool) (a b : PyStr)
    (hb : ∀ x ∈ b, p x = false) : (a ++ b).dropWhile p = a.dropWhile p ++ b := by
  induction a with
  | nil =>
    simp only [List.nil_append, List.dropWhile_nil]
    rcases b with _ | ⟨y, ys⟩
    · rfl
    · rw [List.dropWhile_cons, hb y (by simp)]
      simp
  | cons c a2 ih =>
    simp only [List.cons_append, List.dropWhile_cons]
    by_cases hc : p c = true
    · simp [hc, ih]
    · simp [hc]

lemma matchNumCore_append_sp (neg : Bool) (a sp : PyStr)
    (hsp : ∀ x ∈ sp, isSpaceN x = true) :
    matchNumCore neg (a ++ sp)
      = (matchNumCore neg a).map (fun pr => (pr.1, pr.2 ++ sp)) := by
  have hdig : ∀ x ∈ sp, isDigitN x = false := fun x hx => isSpaceN_not_digit x (hsp x hx)
  simp only [matchNumCore]
  rw [takeWhile_append_fail _ a sp hdig, dropWhile_append_fail _ a sp hdig]
  by_cases hds : a.takeWhile isDigitN = []
  · simp [hds]
  · rw [if_neg hds, if_neg hds]
    rcases hr : a.dropWhile isDigitN with _ | ⟨c, r2⟩
    · simp only [List.nil_append]
      rcases hspc : sp with _ | ⟨y, ys⟩
      · simp
      · have hy46 : y ≠ 46 := isSpaceN_ne_46 y (hsp y (by simp [hspc]))
        simp [hy46]
    · by_cases hc : c = 46
      · subst hc
        simp only [List.cons_append, if_pos rfl]
        rw [takeWhile_append_fail _ r2 sp hdig, dropWhile_append_fail _ r2 sp hdig]
        simp
      · simp only [List.cons_append]
        rw [if_neg hc, if_neg hc]
        simp

lemma matchNum_append_sp (a sp : PyStr) (hsp : ∀ x ∈ sp, isSpaceN x = true) :
    matchNum (a ++ sp) = (matchNum a).map (fun pr => (pr.1, pr.2 ++ sp)) := by
  rcases a with _ | ⟨c, rest⟩
  · simp only [List.nil_append]
    rcases hspc : sp with _ | ⟨y, ys⟩
    · rfl
    · have hy45 : y ≠ 45 := isSpaceN_ne_45 y (hsp y (by simp [hspc]))
      have hyd : isDigitN y = false := isSpaceN_not_digit y (hsp y (by simp [hspc]))
      simp only [matchNum, if_neg hy45, matchNumCore]
      rw [List.takeWhile_cons, hyd]
      simp
  · simp only [List.cons_append, matchNum]
    by_cases hc : c = 45
    · rw [if_pos hc, if_pos hc, matchNumCore_append_sp _ rest sp hsp]
    · rw [if_neg hc, if_neg hc, ← List.cons_append,
        matchNumCore_append_sp _ (c :: rest) sp hsp]

lemma findNums_cons_space (x : Nat) (l : PyStr) (hx : isSpaceN x = true) :
    findNums (x :: l) = findNums l := by
  have hm : matchNum (x :: l) = none := by
    have h45 := isSpaceN_ne_45 x hx
    have hd := isSpaceN_not_digit x hx
    simp only [matchNum, if_neg h45, matchNumCore]
    rw [List.takeWhile_cons, hd]
    simp
  show findNumsF (x :: l).length (x :: l) = findNums l
  simp only [List.length_cons, findNumsF, hm]
  rfl

lemma findNums_sp_append (sp a : PyStr) (hsp : ∀ x ∈ sp, isSpaceN x = true) :
    findNums (sp ++ a) = findNums a := by
  induction sp with
  | nil => simp
  | cons y ys ih =>
    rw [List.cons_append, findNums_cons_space y (ys ++ a) (hsp y (by simp))]
    exact ih (fun x hx => hsp x (by simp [hx]))

lemma findNums_spaces : ∀ sp : PyStr, (∀ x ∈ sp, isSpaceN x = true) → findNums sp = [] := by
  intro sp
  induction sp with
  | nil => intro _; rfl
  | cons y ys ih =>
    intro hsp
    rw [findNums_cons_space y ys (hsp y (by simp))]
    exact ih (fun x hx => hsp x (by simp [hx]))

lemma findNums_append_sp (a sp : PyStr) (hsp : ∀ x ∈ sp, isSpaceN x = true) :
    findNums (a ++ sp) = findNums a := by
  suffices h : ∀ (n : Nat) (a : PyStr), a.length ≤ n → findNums (a ++ sp) = findNums a from
    h a.length a le_rfl
  intro n
  induction n with
  | zero =>
    intro a hn
    have ha : a = [] := List.eq_nil_of_length_eq_zero (by omega)
    subst ha
    simp only [List.nil_append]
    rw [findNums_spaces sp hsp]
    rfl
  | succ m ih =>
    intro a hn
    rcases a with _ | ⟨c, cs⟩
    · simp only [List.nil_append]
      rw [findNums_spaces sp hsp]
      rfl
    · simp only [List.length_cons] at hn
      have hml := matchNum_append_sp (c :: cs) sp hsp
      rcases hm : matchNum (c :: cs) with _ | ⟨t, r⟩
      · rw [hm] at hml
        simp only [Option.map_none'] at hml
        have hml2 : matchNum (c :: (cs ++ sp)) = none := hml
        have hL : findNums ((c :: cs) ++ sp) = findNumsF (cs ++ sp).length (cs ++ sp) := by
          show findNumsF ((c :: cs) ++ sp).length ((c :: cs) ++ sp) = _
          simp only [List.cons_append, List.length_cons, findNumsF, List.append_eq, hml2]
        have hR : findNums (c :: cs) = findNums cs := by
          show findNumsF (c :: cs).length (c :: cs) = findNums cs
          simp only [List.length_cons, findNumsF, hm]
          rfl
        rw [hL, hR]
        show findNums (cs ++ sp) = findNums cs
        exact ih cs (by omega)
      · rw [hm] at hml
        simp only [Option.map_some'] at hml
        have hml2 : matchNum (c :: (cs ++ sp)) = some (t, r ++ sp) := hml
        have hlen := matchNum_length (c :: cs) t r hm
        simp only [List.length_cons] at hlen
        have hL : findNums ((c :: cs) ++ sp)
            = t :: findNumsF (cs ++ sp).length (r ++ sp) := by
          show findNumsF ((c :: cs) ++ sp).length ((c :: cs) ++ sp) = _
          simp only [List.cons_append, List.length_cons, findNumsF, List.append_eq, hml2]
        have hR : findNums (c :: cs) = t :: findNumsF cs.length r := by
          show findNumsF (c :: cs).length (c :: cs) = _
          simp only [List.length_cons, findNumsF, hm]
        rw [hL, hR]
        congr 1
        have h1 : findNumsF (cs ++ sp).length (r ++ sp) = findNums (r ++ sp) := by
          apply findNumsF_eq_findNums
          simp only [List.length_append]
          omega
        have h2 : findNumsF cs.length r = findNums r := by
          apply findNumsF_eq_findNums
          omega
        rw [h1, h2]
        exact ih r (by omega)

lemma mem_takeWhile_pred (p : Nat → Bool) (l : PyStr) :
    ∀ x ∈ l.takeWhile p, p x = true := by
  induction l with
  | nil => simp
  | cons c cs ih =>
    by_cases hc : p c = true
    · rw [List.takeWhile_cons, if_pos hc]
      intro x hx
      rcases List.mem_cons.mp hx with h | h
      · rw [h]
        exact hc
      · exact ih x h
    · rw [List.takeWhile_cons, if_neg hc]
      simp

lemma findNums_pyStrip (s : PyStr) : findNums (pyStrip s) = findNums s := by
  have hleft : findNums (s.dropWhile isSpaceN) = findNums s := by
    conv_rhs => rw [← List.takeWhile_append_dropWhile (p := isSpaceN) (l := s)]
    rw [findNums_sp_append _ _ (mem_takeWhile_pred isSpaceN s)]
  have hsplitu : s.dropWhile isSpaceN
      = pyStrip s ++ ((s.dropWhile isSpaceN).reverse.takeWhile isSpaceN).reverse := by
    have h1 : pyStrip s = ((s.dropWhile isSpaceN).reverse.dropWhile isSpaceN).reverse := rfl
    rw [h1]
    calc s.dropWhile isSpaceN
        = ((s.dropWhile isSpaceN).reverse).reverse := by rw [List.reverse_reverse]
      _ = (((s.dropWhile isSpaceN).reverse.takeWhile isSpaceN)
            ++ ((s.dropWhile isSpaceN).reverse.dropWhile isSpaceN)).reverse := by
          rw [List.takeWhile_append_dropWhile]
      _ = ((s.dropWhile isSpaceN).reverse.dropWhile isSpaceN).reverse
            ++ ((s.dropWhile isSpaceN).reverse.takeWhile isSpaceN).reverse := by
          rw [List.reverse_append]
  have hright : findNums (s.dropWhile isSpaceN) = findNums (pyStrip s) := by
    conv_lhs => rw [hsplitu]
    exact findNums_append_sp (pyStrip s) _
      (fun x hx => mem_takeWhile_pred isSpaceN (s.dropWhile isSpaceN).reverse x
        (by simpa using hx))
  rw [← hright]
  exact hleft

lemma findNums_pyClean (s : PyStr) : findNums (pyClean s) = findNums s := by
  unfold pyClean pyLower
  rw [findNums_lowerN, findNums_pyStrip]

/-- Claim C7: the three Golden Ticket answer tolerances.  `exact` accepts
iff the trimmed responses are equal case-insensitively; `contains` accepts
iff the (cleaned) expected answer is a substring of the (cleaned)
response; `numeric` extracts all signed decimals from the response and
accepts iff one of them is within 0.01 of the first number extracted from
the expected answer, falling back to the exact rule when no number can be
extracted from the expected answer.  (The code additionally falls back to
the exact comparison when numbers were extracted but none matched; that
branch is redundant: equal cleaned strings extract equal number lists, so
the first expected number itself would already have matched.) -/
theorem c7_check_answer_tolerances (response expected : PyStr) :
    (checkAnswer response expected .exact = true ↔ pyClean response = pyClean expected)
    ∧ (checkAnswer response expected .contains = true
        ↔ pyClean expected <:+: pyClean response)
    ∧ (checkAnswer response expected .numeric = true
        ↔ match findNums expected with
          | [] => pyClean response = pyClean expected
          | en :: _ => ∃ m ∈ findNums response, |ratOf m - ratOf en| < 1 / 100) := by
  refine ⟨by simp [checkAnswer], by simp [checkAnswer], ?_⟩
  rcases he : findNums expected with _ | ⟨en, ens⟩
  · simp [checkAnswer, he]
  · simp only [checkAnswer, he]
    by_cases hany : (findNums response).any
        (fun m => decide (|ratOf m - ratOf en| < 1 / 100)) = true
    · rw [if_pos hany]
      simp only [true_iff]
      obtain ⟨m, hm, hd⟩ := List.any_eq_true.mp hany
      exact ⟨m, hm, of_decide_eq_true hd⟩
    · rw [if_neg hany]
      constructor
      · intro hcl
        have hclean : pyClean response = pyClean expected := of_decide_eq_true hcl
        have hfind : findNums response = findNums expected := by
          calc findNums response = findNums (pyClean response) :=
                (findNums_pyClean response).symm
            _ = findNums (pyClean expected) := by rw [hclean]
            _ = findNums expected := findNums_pyClean expected
        refine ⟨en, ?_, ?_⟩
        · rw [hfind, he]
          simp
        · simp
      · rintro ⟨m, hm, hd⟩
        exact absurd (List.any_eq_true.mpr ⟨m, hm, decide_eq_true hd⟩) hany

example : findNums [45, 49, 50, 46, 53, 32, 51] = [[45, 49, 50, 46, 53], [51]] := by decide
example : findNums [52, 46, 46, 53] = [[52, 46], [53]] := by decide
example : checkAnswer [32, 52, 32] [52] .exact = true := by decide
example : checkAnswer [52, 50] [52] .exact = false := by decide
example : checkAnswer [80, 97, 114, 105, 115, 33] [112, 65, 82, 73, 83] .contains = true := by
  decide
